import Mathlib

/-!
Verification of the diagnostic-report extraction core of the battery-health
certificate backend (`app.py`): the functions `extract_from_filename`,
`parse_diagnostic_report` and the canonical-field normalization step of
`extract_data_from_pdf`.

The Python code drives everything through `re.search` over a fixed catalog of
patterns.  We embed the fragment of Python regular expressions that those
patterns use as a small backtracking matcher over `List Char` with Python
semantics: leftmost start position wins, alternatives are tried left to right,
greedy quantifiers prefer longer matches, lazy quantifiers prefer shorter
ones.  Character classes, case folding and whitespace are modelled over the
ASCII fragment, which covers every label and every input the code is
specified on.  Python `float` parsing followed by `int` truncation is
modelled exactly over decimal strings (IEEE rounding of values beyond 2^53 is
not modelled); this is the only numeric conversion in the code and it is
wrapped in a `try/except ValueError`, which we render with `Option`.
-/

namespace BHCG

/-! ### Character classes (ASCII fragment of the Python `re` classes) -/

/-- Python `\s` on the ASCII range. -/
def wsC (c : Char) : Bool :=
  c == ' ' || c == '\t' || c == '\n' || c == '\r' || c == '\x0b' || c == '\x0c'

/-- The class `[:\s]` used after field labels. -/
def colonWsC (c : Char) : Bool := c == ':' || wsC c

/-- Python `\d` on the ASCII range. -/
def digitC (c : Char) : Bool := c.isDigit

/-- The class `[A-Za-z]`. -/
def letterC (c : Char) : Bool :=
  (decide (65 ≤ c.toNat) && decide (c.toNat ≤ 90)) ||
  (decide (97 ≤ c.toNat) && decide (c.toNat ≤ 122))

/-- The class `[A-Z]`. -/
def upperC (c : Char) : Bool := decide (65 ≤ c.toNat) && decide (c.toNat ≤ 90)

/-- The class `[A-Za-z0-9]`. -/
def alnumC (c : Char) : Bool := letterC c || digitC c

/-- The VIN class `[A-HJ-NPR-Z0-9]` under `re.IGNORECASE` (letters except
I, O, Q, in either case, and digits). -/
def vinClassC (c : Char) : Bool :=
  let u := c.toUpper.toNat
  (decide (65 ≤ u) && decide (u ≤ 72)) ||      -- A-H
  (decide (74 ≤ u) && decide (u ≤ 78)) ||      -- J-N
  decide (u = 80) ||                            -- P
  (decide (82 ≤ u) && decide (u ≤ 90)) ||      -- R-Z
  digitC c

/-- The model class `[A-Za-z0-9\s\(\)\-]`. -/
def modelClassC (c : Char) : Bool :=
  letterC c || digitC c || wsC c || c == '(' || c == ')' || c == '-'

/-- The mileage class `[\d,.\s]`. -/
def numRunC (c : Char) : Bool := digitC c || c == ',' || c == '.' || wsC c

/-- The class `[^\n]`. -/
def notNlC (c : Char) : Bool := !(c == '\n')

/-- The class `[^\s\n]`. -/
def nonWsC (c : Char) : Bool := !(wsC c)

/-- The slash-or-hyphen class used between date components. -/
def slashDashC (c : Char) : Bool := c == '/' || c == '-'

/-- The class `[-_]` used in filename patterns. -/
def dashUnderC (c : Char) : Bool := c == '-' || c == '_'

/-- The filename model class `[A-Za-z0-9\s]`. -/
def fnModelC (c : Char) : Bool := letterC c || digitC c || wsC c

/-! ### Python string helpers used by the parser -/

/-- Python `str.strip()` over the ASCII whitespace fragment. -/
def pyStrip (l : List Char) : List Char :=
  ((l.dropWhile wsC).reverse.dropWhile wsC).reverse

/-- The substitution `re.sub` of the pattern `\s+` by a single space:
replace each maximal whitespace run by one space. -/
def collapseWsAux : Bool → List Char → List Char
  | _, [] => []
  | prevWs, c :: t =>
    if wsC c then
      if prevWs then collapseWsAux true t else ' ' :: collapseWsAux true t
    else c :: collapseWsAux false t

/-- The whitespace-collapsing substitution on a whole string. -/
def collapseWs (l : List Char) : List Char := collapseWsAux false l

/-- The substitution `re.sub` of the pattern `[:\s]+$` by the empty string:
drop the trailing run of colons and whitespace. -/
def stripTrailingColonWs (l : List Char) : List Char :=
  (l.reverse.dropWhile colonWsC).reverse

/-- Python `split` on the slash character (keeps empty parts, never returns
an empty list). -/
def splitSlash : List Char → List (List Char)
  | [] => [[]]
  | c :: t =>
    if c == '/' then [] :: splitSlash t
    else
      match splitSlash t with
      | h :: r => (c :: h) :: r
      | [] => [[c]]

/-- Python `s.split()` (split on whitespace runs, dropping empties);
accumulator variant. -/
def splitWordsAux : List Char → List Char → List (List Char)
  | acc, [] => if acc.isEmpty then [] else [acc.reverse]
  | acc, c :: t =>
    if wsC c then
      if acc.isEmpty then splitWordsAux [] t
      else acc.reverse :: splitWordsAux [] t
    else splitWordsAux (c :: acc) t

/-- Python `s.split()`. -/
def splitWords (l : List Char) : List (List Char) := splitWordsAux [] l

/-- Python `join` of a word list with single-space separators. -/
def joinWords : List (List Char) → List Char
  | [] => []
  | [w] => w
  | w :: rest => w ++ ' ' :: joinWords rest

/-- Decimal value of a digit string, as `int(...)` computes it on a `\d+`
capture. -/
def natOfDigits (l : List Char) : Nat :=
  l.foldl (fun a c => a * 10 + (c.toNat - 48)) 0

/-- `int(float(s))` for the strings reachable in the mileage branch after
separator stripping: the characters are digits, dots and residual interior
whitespace.  Python `float` succeeds exactly on `digits`, `digits.digits`,
`digits.` or `.digits` (at least one digit, at most one dot, no other
character), and `int` then truncates to the digits before the dot. -/
def pyFloatToInt (l : List Char) : Option Nat :=
  if l.all (fun c => digitC c || c == '.') then
    match l.countP (fun c => c == '.') with
    | 0 => if l.isEmpty then none else some (natOfDigits l)
    | 1 =>
      if 2 ≤ l.length then
        some (natOfDigits (l.takeWhile (fun c => !(c == '.'))))
      else none
    | _ => none
  else none

/-- Digit extraction with fuel (the fuel only has to dominate the number of
decimal digits, which `n` itself does). -/
def natDigitsAux : Nat → Nat → List Char → List Char
  | 0, n, acc => Char.ofNat (48 + n % 10) :: acc
  | fuel + 1, n, acc =>
    if n < 10 then Char.ofNat (48 + n) :: acc
    else natDigitsAux fuel (n / 10) (Char.ofNat (48 + n % 10) :: acc)

/-- The decimal digits of `n`, most significant first. -/
def natDigits (n : Nat) : List Char := natDigitsAux n n []

/-- Insert a comma after every third character of a reversed digit list. -/
def commaGroupRev : List Char → List Char
  | d1 :: d2 :: d3 :: d4 :: rest => d1 :: d2 :: d3 :: ',' :: commaGroupRev (d4 :: rest)
  | l => l

/-- Python `f-string` formatting with the `,` option: decimal digits of `n`
with comma thousands separators. -/
def commaFmt (n : Nat) : List Char := (commaGroupRev (natDigits n).reverse).reverse

/-! ### A backtracking matcher for the regex fragment used by the code

Constructors map one-to-one onto the constructs appearing in the Python
patterns.  `dollar` is the `$` anchor without `re.MULTILINE` (end of input or
just before a final newline).  Quantifiers are restricted to character
classes, which is all the source patterns use. -/

inductive Pat where
  | eps : Pat
  | lit : Bool → List Char → Pat          -- literal, flag = re.IGNORECASE
  | cls : (Char → Bool) → Pat             -- single character from a class
  | dollar : Pat
  | seq : Pat → Pat → Pat
  | alt : Pat → Pat → Pat                 -- tried left to right
  | opt : Pat → Pat                       -- greedy `?`
  | starC : (Char → Bool) → Pat           -- greedy `*` over a class
  | plusC : (Char → Bool) → Pat           -- greedy `+` over a class
  | lazyPlusC : (Char → Bool) → Pat       -- lazy `+?` over a class
  | rep : Nat → (Char → Bool) → Pat       -- exact repetition of a class
  | grp : Nat → Pat → Pat                 -- numbered capturing group

/-- Capture list: group number paired with the captured characters. -/
abbrev Caps := List (Nat × List Char)

/-- Match a literal from the front, optionally case-insensitively (ASCII). -/
def stripLit (ci : Bool) : List Char → List Char → Option (List Char)
  | [], s => some s
  | _ :: _, [] => none
  | a :: l, c :: s =>
    if (if ci then a.toLower == c.toLower else a == c) then stripLit ci l s
    else none

/-- Greedy star over a class in continuation style: prefer consuming more. -/
def starGreedy (p : Char → Bool) (k : List Char → Caps → Option Caps) :
    List Char → Caps → Option Caps
  | [], caps => k [] caps
  | c :: t, caps =>
    if p c then
      match starGreedy p k t caps with
      | some r => some r
      | none => k (c :: t) caps
    else k (c :: t) caps

/-- Lazy plus over a class: consume one character, then prefer stopping. -/
def lazyPlusGo (p : Char → Bool) (k : List Char → Caps → Option Caps) :
    List Char → Caps → Option Caps
  | [], _ => none
  | c :: t, caps =>
    if p c then
      match k t caps with
      | some r => some r
      | none => lazyPlusGo p k t caps
    else none

/-- Exact repetition of a class. -/
def repGo (p : Char → Bool) : Nat → List Char → Caps →
    (List Char → Caps → Option Caps) → Option Caps
  | 0, s, caps, k => k s caps
  | _ + 1, [], _, _ => none
  | n + 1, c :: t, caps, k => if p c then repGo p n t caps k else none

/-- The matcher.  `matchPat pat s caps k` tries to match `pat` at the start
of `s`, extending `caps`, and calls the continuation `k` on the remaining
input; alternatives are explored in Python backtracking order. -/
def matchPat : Pat → List Char → Caps → (List Char → Caps → Option Caps) →
    Option Caps
  | .eps, s, caps, k => k s caps
  | .lit ci l, s, caps, k =>
    match stripLit ci l s with
    | some rest => k rest caps
    | none => none
  | .cls p, s, caps, k =>
    match s with
    | c :: t => if p c then k t caps else none
    | [] => none
  | .dollar, s, caps, k =>
    match s with
    | [] => k s caps
    | [c] => if c == '\n' then k s caps else none
    | _ => none
  | .seq a b, s, caps, k => matchPat a s caps (fun s2 c2 => matchPat b s2 c2 k)
  | .alt a b, s, caps, k =>
    match matchPat a s caps k with
    | some r => some r
    | none => matchPat b s caps k
  | .opt a, s, caps, k =>
    match matchPat a s caps k with
    | some r => some r
    | none => k s caps
  | .starC p, s, caps, k => starGreedy p k s caps
  | .plusC p, s, caps, k =>
    match s with
    | c :: t => if p c then starGreedy p k t caps else none
    | [] => none
  | .lazyPlusC p, s, caps, k => lazyPlusGo p k s caps
  | .rep n p, s, caps, k => repGo p n s caps k
  | .grp i a, s, caps, k =>
    matchPat a s caps
      (fun s2 c2 => k s2 ((i, s.take (s.length - s2.length)) :: c2))

/-- `re.search`: try every start position from the left; the first position
admitting a match wins, with captures resolved in backtracking order. -/
def searchPat (pat : Pat) : List Char → Option Caps
  | [] => matchPat pat [] [] (fun _ cs => some cs)
  | c :: t =>
    match matchPat pat (c :: t) [] (fun _ cs => some cs) with
    | some cs => some cs
    | none => searchPat pat t

/-- Read a numbered capture group. -/
def getGroup (caps : Caps) (i : Nat) : Option (List Char) :=
  (List.find? (fun b => b.1 == i) caps).map (fun b => b.2)

/-- Sequence a list of pattern pieces. -/
def seqs : List Pat → Pat
  | [] => .eps
  | [p] => p
  | p :: rest => .seq p (seqs rest)

/-- A case-insensitive literal piece. -/
def litCI (s : String) : Pat := .lit true s.data

/-- A case-sensitive literal piece. -/
def litCS (s : String) : Pat := .lit false s.data

/-! ### The pattern catalog of `app.py`, transcribed pattern by pattern -/

-- Filename patterns of `extract_from_filename` (case-sensitive).

-- r"([A-Z][A-Za-z]+)-([A-Za-z0-9\s]+?)(?:EEV)?-(\d{4})"
def fnPat1 : Pat := seqs
  [.grp 1 (.seq (.cls upperC) (.plusC letterC)), litCS "-",
   .grp 2 (.lazyPlusC fnModelC), .opt (litCS "EEV"), litCS "-",
   .grp 3 (.rep 4 digitC)]

-- r"([A-Z][A-Za-z]+)[-_]([A-Za-z0-9\s]+?)[-_](\d{4})"
def fnPat2 : Pat := seqs
  [.grp 1 (.seq (.cls upperC) (.plusC letterC)), .cls dashUnderC,
   .grp 2 (.lazyPlusC fnModelC), .cls dashUnderC,
   .grp 3 (.rep 4 digitC)]

-- r"([A-Z]{2,})-([A-Za-z0-9]+)-(\d{4})"
def fnPat3 : Pat := seqs
  [.grp 1 (seqs [.cls upperC, .cls upperC, .starC upperC]), litCS "-",
   .grp 2 (.plusC alnumC), litCS "-",
   .grp 3 (.rep 4 digitC)]

def filename_patterns : List Pat := [fnPat1, fnPat2, fnPat3]

-- VIN patterns (re.IGNORECASE).

-- r"VIN[:\s]*([A-HJ-NPR-Z0-9]{17})"
def vinPat1 : Pat := seqs
  [litCI "VIN", .starC colonWsC, .grp 1 (.rep 17 vinClassC)]

-- r"Vehicle\s+Identification\s+Number[:\s]*([A-HJ-NPR-Z0-9]{17})"
def vinPat2 : Pat := seqs
  [litCI "Vehicle", .plusC wsC, litCI "Identification", .plusC wsC,
   litCI "Number", .starC colonWsC, .grp 1 (.rep 17 vinClassC)]

-- r"Chassis\s+Number[:\s]*([A-HJ-NPR-Z0-9]{17})"
def vinPat3 : Pat := seqs
  [litCI "Chassis", .plusC wsC, litCI "Number", .starC colonWsC,
   .grp 1 (.rep 17 vinClassC)]

def vin_patterns : List Pat := [vinPat1, vinPat2, vinPat3]

-- Make patterns (re.IGNORECASE).

-- r"Make[:\s]+([A-Za-z]+)"
def makePat1 : Pat := seqs [litCI "Make", .plusC colonWsC, .grp 1 (.plusC letterC)]

-- r"Manufacturer[:\s]+([A-Za-z]+)"
def makePat2 : Pat := seqs
  [litCI "Manufacturer", .plusC colonWsC, .grp 1 (.plusC letterC)]

-- r"Brand[:\s]+([A-Za-z]+)"
def makePat3 : Pat := seqs [litCI "Brand", .plusC colonWsC, .grp 1 (.plusC letterC)]

def make_patterns : List Pat := [makePat1, makePat2, makePat3]

-- Model patterns (re.IGNORECASE).

-- r"Model[:\s]+([A-Za-z0-9\s\(\)\-]+?)\s+Year:"
def modelPat1 : Pat := seqs
  [litCI "Model", .plusC colonWsC, .grp 1 (.lazyPlusC modelClassC),
   .plusC wsC, litCI "Year:"]

-- r"Model[:\s]+([A-Za-z0-9\s\(\)\-]+?)\n"
def modelPat2 : Pat := seqs
  [litCI "Model", .plusC colonWsC, .grp 1 (.lazyPlusC modelClassC), litCS "\n"]

-- r"Model[:\s]*:?\s*([^\n]+?)(?:\s+Year|\n)"
def modelPat3 : Pat := seqs
  [litCI "Model", .starC colonWsC, .opt (litCS ":"), .starC wsC,
   .grp 1 (.lazyPlusC notNlC),
   .alt (.seq (.plusC wsC) (litCI "Year")) (litCS "\n")]

-- r"Vehicle\s+Model[:\s]+([^\n]+)"
def modelPat4 : Pat := seqs
  [litCI "Vehicle", .plusC wsC, litCI "Model", .plusC colonWsC,
   .grp 1 (.plusC notNlC)]

def model_patterns : List Pat := [modelPat1, modelPat2, modelPat3, modelPat4]

-- Year patterns: the year loop calls re.search WITHOUT flags, so these two
-- are case-sensitive.

-- r"Year[:\s]+(\d{4})"
def yearPat1 : Pat := seqs [litCS "Year", .plusC colonWsC, .grp 1 (.rep 4 digitC)]

-- r"Model\s+Year[:\s]+(\d{4})"
def yearPat2 : Pat := seqs
  [litCS "Model", .plusC wsC, litCS "Year", .plusC colonWsC,
   .grp 1 (.rep 4 digitC)]

def year_patterns : List Pat := [yearPat1, yearPat2]

-- Mileage patterns (re.IGNORECASE).

-- r"Distance\s+Traveled[:\s]+([\d,.\s]+)\s*Miles"
def milePat1 : Pat := seqs
  [litCI "Distance", .plusC wsC, litCI "Traveled", .plusC colonWsC,
   .grp 1 (.plusC numRunC), .starC wsC, litCI "Miles"]

-- r"Distance\s+Traveled[:\s]+([\d,.\s]+)Miles"
def milePat2 : Pat := seqs
  [litCI "Distance", .plusC wsC, litCI "Traveled", .plusC colonWsC,
   .grp 1 (.plusC numRunC), litCI "Miles"]

-- r"Mileage[:\s]+([\d,.\s]+)\s*(?:miles|km)?"
def milePat3 : Pat := seqs
  [litCI "Mileage", .plusC colonWsC, .grp 1 (.plusC numRunC), .starC wsC,
   .opt (.alt (litCI "miles") (litCI "km"))]

-- r"Odometer[:\s]+([\d,.\s]+)\s*(?:miles|km)?"
def milePat4 : Pat := seqs
  [litCI "Odometer", .plusC colonWsC, .grp 1 (.plusC numRunC), .starC wsC,
   .opt (.alt (litCI "miles") (litCI "km"))]

-- r"Total\s+Distance[:\s]+([\d,.\s]+)\s*Miles"
def milePat5 : Pat := seqs
  [litCI "Total", .plusC wsC, litCI "Distance", .plusC colonWsC,
   .grp 1 (.plusC numRunC), .starC wsC, litCI "Miles"]

def mileage_patterns : List Pat := [milePat1, milePat2, milePat3, milePat4, milePat5]

-- SOC patterns (re.IGNORECASE | re.MULTILINE; MULTILINE only affects the
-- anchors, which these patterns do not use).

-- r"Display\s+state\s+of\s+charge\s*\(?\s*SOC\s*\)?[:\s]*(\d+)\s*%"
def socPat1 : Pat := seqs
  [litCI "Display", .plusC wsC, litCI "state", .plusC wsC, litCI "of",
   .plusC wsC, litCI "charge", .starC wsC, .opt (litCS "("), .starC wsC,
   litCI "SOC", .starC wsC, .opt (litCS ")"), .starC colonWsC,
   .grp 1 (.plusC digitC), .starC wsC, litCS "%"]

-- r"State\s+of\s+Charge[:\s]*(\d+)\s*%"
def socPat2 : Pat := seqs
  [litCI "State", .plusC wsC, litCI "of", .plusC wsC, litCI "Charge",
   .starC colonWsC, .grp 1 (.plusC digitC), .starC wsC, litCS "%"]

-- r"SOC[:\s]*(\d+)\s*%"
def socPat3 : Pat := seqs
  [litCI "SOC", .starC colonWsC, .grp 1 (.plusC digitC), .starC wsC, litCS "%"]

def soc_patterns : List Pat := [socPat1, socPat2, socPat3]

-- Test-date patterns (re.IGNORECASE | re.MULTILINE).

-- r"Date\s+Created[:\s]*(\d{4})[/-](\d{2})[/-](\d{2})"
def datePat1 : Pat := seqs
  [litCI "Date", .plusC wsC, litCI "Created", .starC colonWsC,
   .grp 1 (.rep 4 digitC), .cls slashDashC, .grp 2 (.rep 2 digitC),
   .cls slashDashC, .grp 3 (.rep 2 digitC)]

-- r"Test\s+Date[:\s]*(\d{4})[/-](\d{2})[/-](\d{2})"
def datePat2 : Pat := seqs
  [litCI "Test", .plusC wsC, litCI "Date", .starC colonWsC,
   .grp 1 (.rep 4 digitC), .cls slashDashC, .grp 2 (.rep 2 digitC),
   .cls slashDashC, .grp 3 (.rep 2 digitC)]

-- r"Diagnostic\s+Date[:\s]*(\d{4})[/-](\d{2})[/-](\d{2})"
def datePat3 : Pat := seqs
  [litCI "Diagnostic", .plusC wsC, litCI "Date", .starC colonWsC,
   .grp 1 (.rep 4 digitC), .cls slashDashC, .grp 2 (.rep 2 digitC),
   .cls slashDashC, .grp 3 (.rep 2 digitC)]

-- r"Report\s+Date[:\s]*(\d{4})[/-](\d{2})[/-](\d{2})"
def datePat4 : Pat := seqs
  [litCI "Report", .plusC wsC, litCI "Date", .starC colonWsC,
   .grp 1 (.rep 4 digitC), .cls slashDashC, .grp 2 (.rep 2 digitC),
   .cls slashDashC, .grp 3 (.rep 2 digitC)]

def date_patterns : List Pat := [datePat1, datePat2, datePat3, datePat4]

-- Battery-capacity patterns (re.IGNORECASE).

-- r"Battery\s+Capacity[:\s]*([^\n]+?)(?:\n|$)"
def battPat1 : Pat := seqs
  [litCI "Battery", .plusC wsC, litCI "Capacity", .starC colonWsC,
   .grp 1 (.lazyPlusC notNlC), .alt (litCS "\n") .dollar]

-- r"Capacity[:\s]*([^\n]+?)(?:\n|$)"
def battPat2 : Pat := seqs
  [litCI "Capacity", .starC colonWsC, .grp 1 (.lazyPlusC notNlC),
   .alt (litCS "\n") .dollar]

-- r"Engine[:\s]+([^\s\n]+(?:/[^\s\n]+)?)"
def battPat3 : Pat := seqs
  [litCI "Engine", .plusC colonWsC,
   .grp 1 (.seq (.plusC nonWsC) (.opt (.seq (litCS "/") (.plusC nonWsC))))]

-- r"Power[:\s]+([^\n]+?)(?:kW|KW)"
def battPat4 : Pat := seqs
  [litCI "Power", .plusC colonWsC, .grp 1 (.lazyPlusC notNlC),
   .alt (litCI "kW") (litCI "KW")]

-- r"Battery\s+Size[:\s]*([^\n]+)"
def battPat5 : Pat := seqs
  [litCI "Battery", .plusC wsC, litCI "Size", .starC colonWsC,
   .grp 1 (.plusC notNlC)]

def battery_patterns : List Pat := [battPat1, battPat2, battPat3, battPat4, battPat5]

/-! ### Data model -/

/-- The raw field bag built by `parse_diagnostic_report`.  String fields
start as the empty string; `soc` starts as the empty string in Python and is
replaced by an `int` when a pattern is accepted, which we render as
`Option Nat` (`none` = still the falsy empty string). -/
structure RawFields where
  vin : String
  make : String
  model : String
  year : String
  mileage : String
  battery_capacity : String
  soc : Option Nat
  test_date : String
deriving DecidableEq

/-- The initial bag of `parse_diagnostic_report`. -/
def emptyRaw : RawFields := ⟨"", "", "", "", "", "", none, ""⟩

/-- The canonical certificate fields assembled by `extract_data_from_pdf`
(lines 503-532): a key is absent from the Python dict exactly when the
corresponding `Option` is `none`. -/
structure CanonicalFields where
  test_date : Option String
  make : Option String
  model : Option String
  vin : Option String
  mileage : Option String
  battery_capacity : Option String
  state_of_health : Option Nat
deriving DecidableEq

/-! ### Field loops of `parse_diagnostic_report` -/

/-- One field loop: try the patterns in declaration order and keep the first
accepted result (`for pattern in ...: if ...: break`). -/
def loopFirst (f : Pat → Option α) : List Pat → Option α
  | [] => none
  | p :: rest =>
    match f p with
    | some v => some v
    | none => loopFirst f rest

/-- One VIN attempt: `data[vin] = match.group(1)`. -/
def vinTry (p : Pat) (t : String) : Option String :=
  (searchPat p t.data).bind fun caps => (getGroup caps 1).map String.mk

def vinField (t : String) : Option String :=
  loopFirst (fun p => vinTry p t) vin_patterns

/-- One make attempt: `data[make] = match.group(1).upper()` (Python `upper`
on the ASCII letters the pattern captures is per-character uppercasing). -/
def makeTry (p : Pat) (t : String) : Option String :=
  (searchPat p t.data).bind fun caps =>
    (getGroup caps 1).map fun g => String.mk (g.map Char.toUpper)

def makeField (t : String) : Option String :=
  loopFirst (fun p => makeTry p t) make_patterns

/-- The model cleanup: strip, collapse whitespace runs, drop trailing
colon/whitespace. -/
def modelClean (g : List Char) : List Char :=
  stripTrailingColonWs (collapseWs (pyStrip g))

/-- One model attempt, including the `if model_text and len(model_text) > 1`
guard: a too-short cleanup result falls through to the next pattern. -/
def modelTry (p : Pat) (t : String) : Option String :=
  (searchPat p t.data).bind fun caps =>
    (getGroup caps 1).bind fun g =>
      let m := modelClean g
      if m ≠ [] ∧ 1 < m.length then some (String.mk m) else none

def modelField (t : String) : Option String :=
  loopFirst (fun p => modelTry p t) model_patterns

/-- One year attempt. -/
def yearTry (p : Pat) (t : String) : Option String :=
  (searchPat p t.data).bind fun caps => (getGroup caps 1).map String.mk

def yearField (t : String) : Option String :=
  loopFirst (fun p => yearTry p t) year_patterns

/-- The raw captured group of one mileage pattern. -/
def mileCapture (p : Pat) (t : String) : Option (List Char) :=
  (searchPat p t.data).bind fun caps => getGroup caps 1

/-- `match.group(1).replace(",", "").replace(" ", "").strip()`. -/
def mileClean (g : List Char) : List Char :=
  pyStrip (g.filter (fun c => !(c == ',') && !(c == ' ')))

/-- One mileage attempt: parse the cleaned capture as a float and format the
truncated integer with thousands separators and the literal suffix; a
`ValueError` (`none`) falls through to the next pattern. -/
def mileTry (p : Pat) (t : String) : Option String :=
  (mileCapture p t).bind fun g =>
    (pyFloatToInt (mileClean g)).map fun n =>
      String.mk (commaFmt n ++ (" miles").data)

def mileageField (t : String) : Option String :=
  loopFirst (fun p => mileTry p t) mileage_patterns

/-- The integer captured by one SOC pattern, before the range check. -/
def socCapture (p : Pat) (t : String) : Option Nat :=
  (searchPat p t.data).bind fun caps => (getGroup caps 1).map natOfDigits

/-- One SOC attempt: `if 0 <= soc_value <= 100` (the captured `\d+` value is
a `Nat`, so only the upper bound can fail); a failed check falls through to
the next pattern. -/
def socTry (p : Pat) (t : String) : Option Nat :=
  (socCapture p t).bind fun n => if n ≤ 100 then some n else none

def socField (t : String) : Option Nat :=
  loopFirst (fun p => socTry p t) soc_patterns

/-- One test-date attempt: the (year, month, day) capture triplet. -/
def dateTry (p : Pat) (t : String) : Option (String × String × String) :=
  (searchPat p t.data).bind fun caps =>
    (getGroup caps 1).bind fun y =>
      (getGroup caps 2).bind fun m =>
        (getGroup caps 3).map fun d => (String.mk y, String.mk m, String.mk d)

def dateField (t : String) : Option (String × String × String) :=
  loopFirst (fun p => dateTry p t) date_patterns

/-- The stored raw test date: the f-string d/m/y, or the initial empty
string. -/
def dateStrOf : Option (String × String × String) → String
  | some ymd => ymd.2.2 ++ "/" ++ ymd.2.1 ++ "/" ++ ymd.1
  | none => ""

/-- One battery-capacity attempt: strip, join whitespace-separated words
with single spaces, accept when nonempty. -/
def battTry (p : Pat) (t : String) : Option String :=
  (searchPat p t.data).bind fun caps =>
    (getGroup caps 1).bind fun g =>
      let m := joinWords (splitWords (pyStrip g))
      if m ≠ [] then some (String.mk m) else none

def battField (t : String) : Option String :=
  loopFirst (fun p => battTry p t) battery_patterns

/-! ### `extract_from_filename` and `parse_diagnostic_report` -/

/-- One filename attempt: the (make, model, year) groups. -/
def fnTry (p : Pat) (t : String) : Option (String × String × String) :=
  (searchPat p t.data).bind fun caps =>
    (getGroup caps 1).bind fun a =>
      (getGroup caps 2).bind fun b =>
        (getGroup caps 3).map fun c => (String.mk a, String.mk b, String.mk c)

/-- `extract_from_filename`: first structurally matching template wins;
`none` models the empty dict. -/
def extract_from_filename (filename : String) : Option (String × String × String) :=
  loopFirst (fun p => fnTry p filename) filename_patterns

/-- The filename seeding step of `parse_diagnostic_report`: only truthy
values are copied into the bag (`if v` in the dict comprehension). -/
def seedFields (filename : String) : RawFields :=
  if filename ≠ "" then
    match extract_from_filename filename with
    | some (mk, md, yr) =>
      { emptyRaw with
        make := if mk ≠ "" then mk else emptyRaw.make,
        model := if md ≠ "" then md else emptyRaw.model,
        year := if yr ≠ "" then yr else emptyRaw.year }
    | none => emptyRaw
  else emptyRaw

/-- `parse_diagnostic_report` (lines 329-476): seed from the filename, then
run the eight field loops in source order, each overwriting its field only
on success. -/
def parse_diagnostic_report (text : String) (filename : String) : RawFields :=
  let data := seedFields filename
  let data := match vinField text with
    | some v => { data with vin := v } | none => data
  let data := match makeField text with
    | some v => { data with make := v } | none => data
  let data := match modelField text with
    | some v => { data with model := v } | none => data
  let data := match yearField text with
    | some v => { data with year := v } | none => data
  let data := match mileageField text with
    | some v => { data with mileage := v } | none => data
  let data := match socField text with
    | some v => { data with soc := some v } | none => data
  let data := match dateField text with
    | some ymd => { data with test_date := ymd.2.2 ++ "/" ++ ymd.2.1 ++ "/" ++ ymd.1 }
    | none => data
  let data := match battField text with
    | some v => { data with battery_capacity := v } | none => data
  data

/-! ### The canonical normalization of `extract_data_from_pdf` -/

/-- Python truthiness of the `soc` cell (an `int` after acceptance, the
empty string before): true exactly for a nonzero accepted value. -/
def socTruthy : Option Nat → Bool
  | some n => !(n == 0)
  | none => false

/-- The normalization step of `extract_data_from_pdf` (lines 503-532): copy
truthy fields into the canonical mapping, converting the test date from
d/m/y (slash-split) to y-m-d and renaming `soc` to `state_of_health`. -/
def normalize_fields (d : RawFields) : CanonicalFields :=
  { test_date :=
      if d.test_date ≠ "" then
        match splitSlash d.test_date.data with
        | [p0, p1, p2] => some (String.mk (p2 ++ '-' :: p1 ++ '-' :: p0))
        | _ => none
      else none,
    make := if d.make ≠ "" then some d.make else none,
    model := if d.model ≠ "" then some d.model else none,
    vin := if d.vin ≠ "" then some d.vin else none,
    mileage := if d.mileage ≠ "" then some d.mileage else none,
    battery_capacity := if d.battery_capacity ≠ "" then some d.battery_capacity else none,
    state_of_health :=
      match d.soc with
      | some n => if !(n == 0) then some n else none
      | none => none }

/-- The composed extraction pipeline a PDF upload goes through once its text
is out: parse, then normalize. -/
def extract_fields (text : String) (filename : String) : CanonicalFields :=
  normalize_fields (parse_diagnostic_report text filename)

/-! ### Basic lemmas about the field loops -/

theorem loopFirst_cons_some {α} (f : Pat → Option α) {p : Pat} {v : α}
    (h : f p = some v) (l : List Pat) : loopFirst f (p :: l) = some v := by
  simp [loopFirst, h]

theorem loopFirst_cons_none {α} (f : Pat → Option α) {p : Pat}
    (h : f p = none) (l : List Pat) : loopFirst f (p :: l) = loopFirst f l := by
  simp [loopFirst, h]

theorem loopFirst_append_some {α} (f : Pat → Option α) {p : Pat} {v : α}
    (l1 l2 : List Pat) (h1 : ∀ q ∈ l1, f q = none) (h2 : f p = some v) :
    loopFirst f (l1 ++ p :: l2) = some v := by
  induction l1 with
  | nil => simpa using loopFirst_cons_some f h2 l2
  | cons q l ih =>
    rw [List.cons_append, loopFirst_cons_none f (h1 q (by simp))]
    exact ih fun r hr => h1 r (by simp [hr])

theorem loopFirst_all_none {α} (f : Pat → Option α) (l : List Pat)
    (h : ∀ q ∈ l, f q = none) : loopFirst f l = none := by
  induction l with
  | nil => rfl
  | cons q l ih =>
    rw [loopFirst_cons_none f (h q (by simp))]
    exact ih fun r hr => h r (by simp [hr])

theorem exists_of_loopFirst_some {α} {f : Pat → Option α} {l : List Pat} {v : α}
    (h : loopFirst f l = some v) : ∃ p ∈ l, f p = some v := by
  induction l with
  | nil => simp [loopFirst] at h
  | cons q l ih =>
    by_cases hq : f q = some v
    · exact ⟨q, by simp, hq⟩
    · rw [loopFirst] at h
      match hfq : f q with
      | some w => rw [hfq] at h; exact absurd (hfq.trans h) hq
      | none =>
        rw [hfq] at h
        obtain ⟨p, hp, hv⟩ := ih h
        exact ⟨p, by simp [hp], hv⟩

/-! ### Decomposition of the parser into its per-field extractors -/

theorem seedFields_passive (filename : String) :
    (seedFields filename).vin = "" ∧ (seedFields filename).mileage = "" ∧
    (seedFields filename).battery_capacity = "" ∧
    (seedFields filename).soc = none ∧ (seedFields filename).test_date = "" := by
  unfold seedFields
  split
  · split
    · exact ⟨rfl, rfl, rfl, rfl, rfl⟩
    · exact ⟨rfl, rfl, rfl, rfl, rfl⟩
  · exact ⟨rfl, rfl, rfl, rfl, rfl⟩

/-- Each field of the parser output is computed by its own extractor from
the body text alone, falling back on the filename seed: no field loop can
disturb any other field. -/
theorem parse_fields (text filename : String) :
    parse_diagnostic_report text filename =
      { vin := (vinField text).getD (seedFields filename).vin,
        make := (makeField text).getD (seedFields filename).make,
        model := (modelField text).getD (seedFields filename).model,
        year := (yearField text).getD (seedFields filename).year,
        mileage := (mileageField text).getD (seedFields filename).mileage,
        battery_capacity := (battField text).getD (seedFields filename).battery_capacity,
        soc := (socField text).or (seedFields filename).soc,
        test_date := (dateField text).elim (seedFields filename).test_date
          (fun ymd => ymd.2.2 ++ "/" ++ ymd.2.1 ++ "/" ++ ymd.1) } := by
  unfold parse_diagnostic_report
  cases hv : vinField text <;> cases hmk : makeField text <;>
    cases hmd : modelField text <;> cases hy : yearField text <;>
    cases hmi : mileageField text <;> cases hs : socField text <;>
    cases hd : dateField text <;> cases hb : battField text <;> rfl

/-! ### Captured groups of the date patterns are digit strings

The three capture groups of every date pattern are exact repetitions of the
digit class, so whatever a successful search captures for them contains only
digits — in particular no slash, which is what the normalization step splits
on. -/

/-- Patterns whose capture groups are all exact digit repetitions. -/
inductive DigitGroups : Pat → Prop where
  | eps : DigitGroups .eps
  | lit (ci : Bool) (l : List Char) : DigitGroups (.lit ci l)
  | cls (p : Char → Bool) : DigitGroups (.cls p)
  | dollar : DigitGroups .dollar
  | seq (a b : Pat) (ha : DigitGroups a) (hb : DigitGroups b) :
      DigitGroups (.seq a b)
  | alt (a b : Pat) (ha : DigitGroups a) (hb : DigitGroups b) :
      DigitGroups (.alt a b)
  | opt (a : Pat) (ha : DigitGroups a) : DigitGroups (.opt a)
  | starC (p : Char → Bool) : DigitGroups (.starC p)
  | plusC (p : Char → Bool) : DigitGroups (.plusC p)
  | lazyPlusC (p : Char → Bool) : DigitGroups (.lazyPlusC p)
  | rep (n : Nat) (p : Char → Bool) : DigitGroups (.rep n p)
  | grp (i n : Nat) : DigitGroups (.grp i (.rep n digitC))

theorem repGo_some {p : Char → Bool} :
    ∀ {n : Nat} {s : List Char} {caps : Caps} {k r},
      repGo p n s caps k = some r →
      ∃ pre rest, s = pre ++ rest ∧ pre.length = n ∧ pre.all p = true ∧
        k rest caps = some r := by
  intro n
  induction n with
  | zero => intro s caps k r h; exact ⟨[], s, rfl, rfl, rfl, h⟩
  | succ m ih =>
    intro s caps k r h
    match s with
    | [] => simp [repGo] at h
    | c :: t =>
      simp only [repGo] at h
      split at h
      · obtain ⟨pre, rest, hsp, hlen, hall, hk⟩ := ih h
        refine ⟨c :: pre, rest, by simp [hsp], by simp [hlen], ?_, hk⟩
        simp only [List.all_cons, Bool.and_eq_true]
        exact ⟨by assumption, hall⟩
      · exact absurd h (by simp)

theorem starGreedy_some {p : Char → Bool} {k : List Char → Caps → Option Caps} :
    ∀ {s : List Char} {caps r}, starGreedy p k s caps = some r →
      ∃ rest, k rest caps = some r := by
  intro s
  induction s with
  | nil => intro caps r h; exact ⟨[], h⟩
  | cons c t ih =>
    intro caps r h
    simp only [starGreedy] at h
    split at h
    · split at h
      · next r2 heq =>
        obtain rfl : r2 = r := by injection h
        exact ih heq
      · exact ⟨c :: t, h⟩
    · exact ⟨c :: t, h⟩

theorem lazyPlusGo_some {p : Char → Bool} {k : List Char → Caps → Option Caps} :
    ∀ {s : List Char} {caps r}, lazyPlusGo p k s caps = some r →
      ∃ rest, k rest caps = some r := by
  intro s
  induction s with
  | nil => intro caps r h; simp [lazyPlusGo] at h
  | cons c t ih =>
    intro caps r h
    simp only [lazyPlusGo] at h
    split at h
    · split at h
      · next r2 heq =>
        obtain rfl : r2 = r := by injection h
        exact ⟨t, heq⟩
      · exact ih h
    · exact absurd h (by simp)

theorem matchPat_digitGroups {pat : Pat} (hp : DigitGroups pat) :
    ∀ {s : List Char} {caps : Caps} {k r},
      matchPat pat s caps k = some r →
      ∃ s2 caps2, k s2 caps2 = some r ∧
        ∀ b ∈ caps2, b ∈ caps ∨ b.2.all digitC = true := by
  induction hp with
  | eps => intro s caps k r h; exact ⟨s, caps, h, fun b hb => .inl hb⟩
  | lit ci l =>
    intro s caps k r h
    simp only [matchPat] at h
    split at h
    · next rest _ => exact ⟨rest, caps, h, fun b hb => .inl hb⟩
    · exact absurd h (by simp)
  | cls p =>
    intro s caps k r h
    simp only [matchPat] at h
    split at h
    · next c t =>
      split at h
      · exact ⟨t, caps, h, fun b hb => .inl hb⟩
      · exact absurd h (by simp)
    · exact absurd h (by simp)
  | dollar =>
    intro s caps k r h
    simp only [matchPat] at h
    split at h
    · exact ⟨_, caps, h, fun b hb => .inl hb⟩
    · split at h
      · exact ⟨_, caps, h, fun b hb => .inl hb⟩
      · exact absurd h (by simp)
    · exact absurd h (by simp)
  | seq a b ha hb iha ihb =>
    intro s caps k r h
    simp only [matchPat] at h
    obtain ⟨s2, caps2, hk2, hc2⟩ := iha h
    obtain ⟨s3, caps3, hk3, hc3⟩ := ihb hk2
    refine ⟨s3, caps3, hk3, fun b hbm => ?_⟩
    rcases hc3 b hbm with h2 | hd
    · exact hc2 b h2
    · exact .inr hd
  | alt a b ha hb iha ihb =>
    intro s caps k r h
    simp only [matchPat] at h
    split at h
    · next r2 heq =>
      obtain rfl : r2 = r := by injection h
      exact iha heq
    · next heq => exact ihb h
  | opt a ha iha =>
    intro s caps k r h
    simp only [matchPat] at h
    split at h
    · next r2 heq =>
      obtain rfl : r2 = r := by injection h
      exact iha heq
    · exact ⟨s, caps, h, fun b hb => .inl hb⟩
  | starC p =>
    intro s caps k r h
    simp only [matchPat] at h
    obtain ⟨rest, hk⟩ := starGreedy_some h
    exact ⟨rest, caps, hk, fun b hb => .inl hb⟩
  | plusC p =>
    intro s caps k r h
    simp only [matchPat] at h
    split at h
    · next c t =>
      split at h
      · obtain ⟨rest, hk⟩ := starGreedy_some h
        exact ⟨rest, caps, hk, fun b hb => .inl hb⟩
      · exact absurd h (by simp)
    · exact absurd h (by simp)
  | lazyPlusC p =>
    intro s caps k r h
    simp only [matchPat] at h
    obtain ⟨rest, hk⟩ := lazyPlusGo_some h
    exact ⟨rest, caps, hk, fun b hb => .inl hb⟩
  | rep n p =>
    intro s caps k r h
    simp only [matchPat] at h
    obtain ⟨pre, rest, _, _, _, hk⟩ := repGo_some h
    exact ⟨rest, caps, hk, fun b hb => .inl hb⟩
  | grp i n =>
    intro s caps k r h
    simp only [matchPat] at h
    obtain ⟨pre, rest, hsp, hlen, hall, hk⟩ := repGo_some h
    have hlen2 : s.length - rest.length = pre.length := by
      subst hsp; simp [List.length_append]
    have htake : s.take (s.length - rest.length) = pre := by
      rw [hlen2]; subst hsp; exact List.take_left pre rest
    rw [htake] at hk
    refine ⟨rest, (i, pre) :: caps, hk, fun b hb => ?_⟩
    rcases List.mem_cons.mp hb with rfl | hmem
    · exact .inr hall
    · exact .inl hmem

theorem searchPat_digitGroups {pat : Pat} (hp : DigitGroups pat) :
    ∀ {t : List Char} {caps}, searchPat pat t = some caps →
      ∀ b ∈ caps, b.2.all digitC = true := by
  intro t
  induction t with
  | nil =>
    intro caps h b hb
    simp only [searchPat] at h
    obtain ⟨s2, caps2, hk, hprop⟩ := matchPat_digitGroups hp h
    obtain rfl : caps2 = caps := by injection hk
    rcases hprop b hb with hin | hd
    · exact absurd hin (List.not_mem_nil b)
    · exact hd
  | cons c tl ih =>
    intro caps h b hb
    rw [searchPat] at h
    cases hm : matchPat pat (c :: tl) [] (fun _ cs => some cs) with
    | some cs =>
      rw [hm] at h
      obtain ⟨s2, caps3, hk, hprop⟩ := matchPat_digitGroups hp hm
      obtain rfl : caps3 = cs := by injection hk
      obtain rfl : caps3 = caps := by injection h
      rcases hprop b hb with hin | hd
      · exact absurd hin (List.not_mem_nil b)
      · exact hd
    | none =>
      rw [hm] at h
      exact ih h b hb

theorem getGroup_mem {caps : Caps} {i : Nat} {g : List Char}
    (h : getGroup caps i = some g) : (i, g) ∈ caps := by
  unfold getGroup at h
  rw [Option.map_eq_some'] at h
  obtain ⟨b, hb, hbg⟩ := h
  have hmem := List.mem_of_find?_eq_some hb
  have hpred := List.find?_some hb
  obtain ⟨b1, b2⟩ := b
  simp only at hbg hpred
  have h1 : b1 = i := by simpa using hpred
  subst h1; subst hbg; exact hmem

/-- Every date pattern has digit-only capture groups. -/
theorem date_patterns_digitGroups : ∀ p ∈ date_patterns, DigitGroups p := by
  intro p hp
  simp only [date_patterns, List.mem_cons, List.not_mem_nil, or_false] at hp
  rcases hp with rfl | rfl | rfl | rfl
  · unfold datePat1 seqs; repeat constructor
  · unfold datePat2 seqs; repeat constructor
  · unfold datePat3 seqs; repeat constructor
  · unfold datePat4 seqs; repeat constructor

/-- A digit is not a slash. -/
theorem digit_ne_slash {c : Char} (h : digitC c = true) : ¬ c = '/' := by
  intro he; rw [he] at h; exact absurd h (by decide)

/-- The triplet returned by the date loop consists of digit strings. -/
theorem dateField_digits {t : String} {y m d : String}
    (h : dateField t = some (y, m, d)) :
    y.data.all digitC = true ∧ m.data.all digitC = true ∧
      d.data.all digitC = true := by
  obtain ⟨p, hp, htry⟩ := exists_of_loopFirst_some h
  have hdg := date_patterns_digitGroups p hp
  unfold dateTry at htry
  rw [Option.bind_eq_some] at htry
  obtain ⟨caps, hs, htry⟩ := htry
  rw [Option.bind_eq_some] at htry
  obtain ⟨gy, hgy, htry⟩ := htry
  rw [Option.bind_eq_some] at htry
  obtain ⟨gm, hgm, htry⟩ := htry
  rw [Option.map_eq_some'] at htry
  obtain ⟨gd, hgd, htry⟩ := htry
  injection htry with h1 h23
  injection h23 with h2 h3
  subst h1; subst h2; subst h3
  have hall := searchPat_digitGroups hdg hs
  exact ⟨hall _ (getGroup_mem hgy), hall _ (getGroup_mem hgm),
    hall _ (getGroup_mem hgd)⟩

/-! ### Splitting on slashes -/

theorem splitSlash_no_slash : ∀ {l : List Char}, (∀ c ∈ l, ¬ c = '/') →
    splitSlash l = [l] := by
  intro l
  induction l with
  | nil => intro _; rfl
  | cons c t ih =>
    intro h
    have hc : (c == '/') = false := by
      simpa using h c (by simp)
    simp only [splitSlash, hc, Bool.false_eq_true, if_false]
    rw [ih fun x hx => h x (by simp [hx])]

theorem splitSlash_append (a rest : List Char) (ha : ∀ c ∈ a, ¬ c = '/') :
    splitSlash (a ++ '/' :: rest) = a :: splitSlash rest := by
  induction a with
  | nil => simp [splitSlash]
  | cons c t ih =>
    have hc : (c == '/') = false := by
      simpa using ha c (by simp)
    simp only [List.cons_append, splitSlash, hc, Bool.false_eq_true, if_false,
      List.append_eq]
    rw [ih fun x hx => ha x (by simp [hx])]

/-! ### Composition facts about the pipeline -/

theorem str_ne_empty_iff (s : String) : s ≠ "" ↔ s.data ≠ [] := by
  rw [ne_eq, String.ext_iff]

/-- Projections of the parser output, with the always-empty seed components
simplified away. -/
theorem parse_simp (text filename : String) :
    (parse_diagnostic_report text filename).vin = (vinField text).getD "" ∧
    (parse_diagnostic_report text filename).mileage = (mileageField text).getD "" ∧
    (parse_diagnostic_report text filename).battery_capacity = (battField text).getD "" ∧
    (parse_diagnostic_report text filename).soc = socField text ∧
    (parse_diagnostic_report text filename).test_date =
      (dateField text).elim "" (fun ymd => ymd.2.2 ++ "/" ++ ymd.2.1 ++ "/" ++ ymd.1) := by
  obtain ⟨h1, h2, h3, h4, h5⟩ := seedFields_passive filename
  rw [parse_fields]
  refine ⟨by rw [h1], by rw [h2], by rw [h3], ?_, by rw [h5]⟩
  rw [h4]
  cases socField text <;> rfl

/-- When the date loop succeeds, the raw d/m/y string round-trips through
the normalizer back to the hyphen-separated y-m-d form. -/
theorem test_date_of_dateField {text filename : String} {y m d : String}
    (h : dateField text = some (y, m, d)) :
    (parse_diagnostic_report text filename).test_date = d ++ "/" ++ m ++ "/" ++ y ∧
    (extract_fields text filename).test_date = some (y ++ "-" ++ m ++ "-" ++ d) := by
  obtain ⟨hy, hm, hd⟩ := dateField_digits h
  have hyn : ∀ c ∈ y.data, ¬ c = '/' :=
    fun c hc => digit_ne_slash (List.all_eq_true.mp hy c hc)
  have hmn : ∀ c ∈ m.data, ¬ c = '/' :=
    fun c hc => digit_ne_slash (List.all_eq_true.mp hm c hc)
  have hdn : ∀ c ∈ d.data, ¬ c = '/' :=
    fun c hc => digit_ne_slash (List.all_eq_true.mp hd c hc)
  have hraw : (parse_diagnostic_report text filename).test_date =
      d ++ "/" ++ m ++ "/" ++ y := by
    rw [(parse_simp text filename).2.2.2.2, h]
    rfl
  have hdata : (d ++ "/" ++ m ++ "/" ++ y).data =
      d.data ++ '/' :: (m.data ++ '/' :: y.data) := by
    simp [String.data_append]
  have hne : (d ++ "/" ++ m ++ "/" ++ y) ≠ "" := by
    rw [str_ne_empty_iff, hdata]
    simp
  have hsplit : splitSlash ((d ++ "/" ++ m ++ "/" ++ y)).data =
      [d.data, m.data, y.data] := by
    rw [hdata, splitSlash_append _ _ hdn, splitSlash_append _ _ hmn,
      splitSlash_no_slash hyn]
  refine ⟨hraw, ?_⟩
  show (normalize_fields (parse_diagnostic_report text filename)).test_date = _
  simp only [normalize_fields]
  rw [hraw, if_pos hne, hsplit]
  show some (String.mk (y.data ++ '-' :: m.data ++ '-' :: d.data)) = _
  refine congrArg some (String.ext ?_)
  simp [String.data_append]

/-- Any value accepted by the SOC loop passed the closed-range check. -/
theorem socField_le {t : String} {n : Nat} (h : socField t = some n) : n ≤ 100 := by
  obtain ⟨p, hp, htry⟩ := exists_of_loopFirst_some h
  unfold socTry at htry
  rw [Option.bind_eq_some] at htry
  obtain ⟨v, hv, hg⟩ := htry
  split at hg
  · next hle =>
    obtain rfl : v = n := by injection hg
    exact hle
  · exact absurd hg (by simp)

theorem isSome_ite_ne_empty (s : String) :
    (if s ≠ "" then some s else none).isSome = true ↔ s ≠ "" := by
  split <;> simp [*]

/-! ### The claims -/

/-- C1: on a report containing the six labelled example lines and no other
field labels, the composition of the parser with the canonical
normalization yields exactly the six-key mapping of the specification (the
`battery_capacity` key and every other key absent). -/
theorem c1_end_to_end :
    extract_fields
        ("VIN: KNAFK5A12A5123456\nMake: Hyundai\nModel: Ioniq Year: 2022\nDisplay state of charge (SOC): 87%\nTest Date: 2024-03-15\nDistance Traveled: 12,345 Miles")
        "" =
      { test_date := some "2024-03-15", make := some "HYUNDAI",
        model := some "Ioniq", vin := some "KNAFK5A12A5123456",
        mileage := some "12,345 miles", battery_capacity := none,
        state_of_health := some 87 } := by decide

/-- C2: candidate templates are consulted strictly in declaration order: as
soon as one template of a field yields an accepted value, the result is that
value no matter what the remaining lower-priority templates would produce
(the loop result is independent of the tail of the pattern list), and each
field extractor is exactly such an ordered first-match loop. -/
theorem c2_template_priority :
    (∀ (t : String) (l1 l2 : List Pat) (p : Pat) (v : String),
        (∀ q ∈ l1, modelTry q t = none) → modelTry p t = some v →
        loopFirst (fun q => modelTry q t) (l1 ++ p :: l2) = some v) ∧
    (∀ (t : String) (l1 l2 : List Pat) (p : Pat) (v : String),
        (∀ q ∈ l1, mileTry q t = none) → mileTry p t = some v →
        loopFirst (fun q => mileTry q t) (l1 ++ p :: l2) = some v) ∧
    (∀ t : String, vinField t = loopFirst (fun q => vinTry q t) vin_patterns) ∧
    (∀ t : String, makeField t = loopFirst (fun q => makeTry q t) make_patterns) ∧
    (∀ t : String, modelField t = loopFirst (fun q => modelTry q t) model_patterns) ∧
    (∀ t : String, yearField t = loopFirst (fun q => yearTry q t) year_patterns) ∧
    (∀ t : String, mileageField t = loopFirst (fun q => mileTry q t) mileage_patterns) ∧
    (∀ t : String, socField t = loopFirst (fun q => socTry q t) soc_patterns) ∧
    (∀ t : String, dateField t = loopFirst (fun q => dateTry q t) date_patterns) ∧
    (∀ t : String, battField t = loopFirst (fun q => battTry q t) battery_patterns) :=
  ⟨fun _ l1 l2 _ _ h1 h2 => loopFirst_append_some _ l1 l2 h1 h2,
   fun _ l1 l2 _ _ h1 h2 => loopFirst_append_some _ l1 l2 h1 h2,
   fun _ => rfl, fun _ => rfl, fun _ => rfl, fun _ => rfl, fun _ => rfl,
   fun _ => rfl, fun _ => rfl, fun _ => rfl⟩

/-- C2 witness: on a text where the first model template captures `Foo` and
the fourth would capture `Bar`, the field is `Foo`. -/
theorem c2_template_priority_witness :
    modelField "Model: Foo Year: 2020\nVehicle Model: Bar" = some "Foo" ∧
    modelTry modelPat4 "Model: Foo Year: 2020\nVehicle Model: Bar" = some "Bar" := by
  constructor
  · exact c2_template_priority.1 "Model: Foo Year: 2020\nVehicle Model: Bar"
      [] [modelPat2, modelPat3, modelPat4] modelPat1 "Foo"
      (fun q hq => absurd hq (List.not_mem_nil q)) (by decide)
  · decide

/-- C3: a captured SOC integer is accepted only inside the closed range
0..100 (the lower bound holds for free on a digit capture): an out-of-range
capture makes the loop continue with the remaining templates, and when every
SOC template either fails or captures an out-of-range value the raw field
stays unset and the canonical output has no `state_of_health` key. -/
theorem c3_soc_range_guard :
    (∀ (t : String) (p : Pat) (rest : List Pat) (n : Nat),
        socCapture p t = some n → ¬ n ≤ 100 →
        loopFirst (fun q => socTry q t) (p :: rest) =
          loopFirst (fun q => socTry q t) rest) ∧
    (∀ (t fn : String),
        (∀ p ∈ soc_patterns, ∀ n, socCapture p t = some n → ¬ n ≤ 100) →
        socField t = none ∧ (extract_fields t fn).state_of_health = none) := by
  constructor
  · intro t p rest n hcap hgt
    have hnone : socTry p t = none := by
      unfold socTry
      rw [hcap]
      simp [hgt]
    exact loopFirst_cons_none _ hnone rest
  · intro t fn hall
    have hnone : socField t = none := by
      refine loopFirst_all_none _ _ fun q hq => ?_
      unfold socTry
      cases hc : socCapture q t with
      | none => rfl
      | some n => simp [hall q hq n hc]
    refine ⟨hnone, ?_⟩
    show (normalize_fields (parse_diagnostic_report t fn)).state_of_health = none
    simp only [normalize_fields]
    rw [(parse_simp t fn).2.2.2.1, hnone]

/-- C3 witness: a lone out-of-range SOC line (140, 101) never populates
`state_of_health`, and a negative value is not even captured. -/
theorem c3_soc_range_guard_witness :
    socField "SOC: 140%" = none ∧
    (extract_fields "SOC: 140%" "").state_of_health = none ∧
    loopFirst (fun q => socTry q "SOC: 140%") (socPat3 :: []) =
      loopFirst (fun q => socTry q "SOC: 140%") [] ∧
    socField "SOC: 101%" = none ∧
    (extract_fields "SOC: 101%" "").state_of_health = none ∧
    socField "SOC: -1%" = none := by
  have hyp : ∀ p ∈ soc_patterns, ∀ n, socCapture p "SOC: 140%" = some n → ¬ n ≤ 100 := by
    intro p hp n hcap
    simp only [soc_patterns, List.mem_cons, List.not_mem_nil, or_false] at hp
    rcases hp with rfl | rfl | rfl
    · rw [(by decide : socCapture socPat1 "SOC: 140%" = none)] at hcap
      exact absurd hcap (by simp)
    · rw [(by decide : socCapture socPat2 "SOC: 140%" = none)] at hcap
      exact absurd hcap (by simp)
    · rw [(by decide : socCapture socPat3 "SOC: 140%" = some 140)] at hcap
      obtain rfl : (140 : Nat) = n := by injection hcap
      decide
  obtain ⟨h1, h2⟩ := c3_soc_range_guard.2 "SOC: 140%" "" hyp
  refine ⟨h1, h2, ?_, by decide, by decide, by decide⟩
  exact c3_soc_range_guard.1 "SOC: 140%" socPat3 [] 140 (by decide) (by decide)

/-- C4: the filename heuristic only seeds the initial state: a body-text
success for make, model or year overwrites the seeded value, and the seeded
value survives exactly when the body loop for that field fails. -/
theorem c4_filename_fallback :
    ∀ (text filename : String) (v : String),
      (makeField text = some v → (parse_diagnostic_report text filename).make = v) ∧
      (makeField text = none →
        (parse_diagnostic_report text filename).make = (seedFields filename).make) ∧
      (modelField text = some v → (parse_diagnostic_report text filename).model = v) ∧
      (modelField text = none →
        (parse_diagnostic_report text filename).model = (seedFields filename).model) ∧
      (yearField text = some v → (parse_diagnostic_report text filename).year = v) ∧
      (yearField text = none →
        (parse_diagnostic_report text filename).year = (seedFields filename).year) := by
  intro text filename v
  rw [parse_fields text filename]
  exact ⟨fun h => by rw [h]; rfl, fun h => by rw [h]; rfl,
    fun h => by rw [h]; rfl, fun h => by rw [h]; rfl,
    fun h => by rw [h]; rfl, fun h => by rw [h]; rfl⟩

/-- C4 witness: filename `Tesla-Model3-2023` seeds make, model and year;
body text `Make: Hyundai` overwrites only the make, the other two seeded
fields survive. -/
theorem c4_filename_fallback_witness :
    (parse_diagnostic_report "Make: Hyundai" "Tesla-Model3-2023").make = "HYUNDAI" ∧
    (parse_diagnostic_report "Make: Hyundai" "Tesla-Model3-2023").model = "Model3" ∧
    (parse_diagnostic_report "Make: Hyundai" "Tesla-Model3-2023").year = "2023" := by
  refine ⟨(c4_filename_fallback "Make: Hyundai" "Tesla-Model3-2023" "HYUNDAI").1 (by decide),
    ((c4_filename_fallback "Make: Hyundai" "Tesla-Model3-2023" "").2.2.2.1 (by decide)).trans
      (by decide),
    ((c4_filename_fallback "Make: Hyundai" "Tesla-Model3-2023" "").2.2.2.2.2 (by decide)).trans
      (by decide)⟩

/-- C5: over the whole pipeline, a canonical key is present exactly when the
corresponding raw field is truthy (nonempty string, or nonzero accepted
SOC); in particular a text matching only the VIN and Make labels yields
exactly the two-key mapping. -/
theorem c5_truthy_keys :
    (∀ (text filename : String),
      ((extract_fields text filename).vin.isSome = true ↔
        (parse_diagnostic_report text filename).vin ≠ "") ∧
      ((extract_fields text filename).make.isSome = true ↔
        (parse_diagnostic_report text filename).make ≠ "") ∧
      ((extract_fields text filename).model.isSome = true ↔
        (parse_diagnostic_report text filename).model ≠ "") ∧
      ((extract_fields text filename).mileage.isSome = true ↔
        (parse_diagnostic_report text filename).mileage ≠ "") ∧
      ((extract_fields text filename).battery_capacity.isSome = true ↔
        (parse_diagnostic_report text filename).battery_capacity ≠ "") ∧
      ((extract_fields text filename).test_date.isSome = true ↔
        (parse_diagnostic_report text filename).test_date ≠ "") ∧
      ((extract_fields text filename).state_of_health.isSome = true ↔
        socTruthy (parse_diagnostic_report text filename).soc = true)) ∧
    extract_fields "VIN: KNAFK5A12A5123456\nMake: Hyundai" "" =
      { test_date := none, make := some "HYUNDAI", model := none,
        vin := some "KNAFK5A12A5123456", mileage := none,
        battery_capacity := none, state_of_health := none } := by
  constructor
  · intro text filename
    refine ⟨isSome_ite_ne_empty _, isSome_ite_ne_empty _, isSome_ite_ne_empty _,
      isSome_ite_ne_empty _, isSome_ite_ne_empty _, ?_, ?_⟩
    · constructor
      · intro hsome
        by_contra he
        rw [show (extract_fields text filename).test_date =
            (normalize_fields (parse_diagnostic_report text filename)).test_date from rfl]
          at hsome
        simp [normalize_fields, he] at hsome
      · intro hne
        rw [(parse_simp text filename).2.2.2.2] at hne
        cases hd : dateField text with
        | none => rw [hd] at hne; exact absurd rfl hne
        | some val =>
          obtain ⟨y, m, d⟩ := val
          rw [(test_date_of_dateField hd).2]
          rfl
    · show (normalize_fields (parse_diagnostic_report text filename)).state_of_health.isSome
          = true ↔ _
      simp only [normalize_fields, socTruthy]
      cases (parse_diagnostic_report text filename).soc with
      | none => simp
      | some n =>
        by_cases hz : (n == 0) = true
        · simp [hz]
        · simp only [Bool.not_eq_true] at hz
          simp [hz]
  · decide

/-- C6 counterexample: a raw test date split into three parts by hyphens
only is dropped by the normalizer, not converted (the code splits on the
slash character alone). -/
theorem c6_hyphen_counterexample :
    (normalize_fields { emptyRaw with test_date := "15-03-2024" }).test_date = none := by
  decide

/-- C6 amended: the normalizer emits a reordered test-date key exactly when
the raw value is truthy and splits into exactly three SLASH-delimited parts;
it reorders those parts, and a nonempty raw date containing no slash at all
(in particular a hyphen-delimited one) is silently dropped. -/
theorem c6_slash_only_amended :
    ∀ (dd : RawFields),
      ((normalize_fields dd).test_date.isSome = true ↔
        (dd.test_date ≠ "" ∧ (splitSlash dd.test_date.data).length = 3)) ∧
      (∀ p0 p1 p2, dd.test_date ≠ "" → splitSlash dd.test_date.data = [p0, p1, p2] →
        (normalize_fields dd).test_date = some (String.mk (p2 ++ '-' :: p1 ++ '-' :: p0))) ∧
      ((∀ c ∈ dd.test_date.data, ¬ c = '/') → dd.test_date ≠ "" →
        (normalize_fields dd).test_date = none) := by
  intro dd
  refine ⟨?_, ?_, ?_⟩
  · show (if dd.test_date ≠ "" then
        match splitSlash dd.test_date.data with
        | [p0, p1, p2] => some (String.mk (p2 ++ '-' :: p1 ++ '-' :: p0))
        | _ => none
      else none).isSome = true ↔ _
    by_cases hne : dd.test_date ≠ ""
    · rw [if_pos hne]
      rcases hsp : splitSlash dd.test_date.data with _ | ⟨a, _ | ⟨b, _ | ⟨c, _ | ⟨e, l⟩⟩⟩⟩ <;>
        simp [hne]
    · rw [if_neg hne]
      simp [hne]
  · intro p0 p1 p2 hne hsp
    show (if dd.test_date ≠ "" then
        match splitSlash dd.test_date.data with
        | [p0, p1, p2] => some (String.mk (p2 ++ '-' :: p1 ++ '-' :: p0))
        | _ => none
      else none) = _
    rw [if_pos hne, hsp]
  · intro hns hne
    show (if dd.test_date ≠ "" then
        match splitSlash dd.test_date.data with
        | [p0, p1, p2] => some (String.mk (p2 ++ '-' :: p1 ++ '-' :: p0))
        | _ => none
      else none) = none
    rw [if_pos hne, splitSlash_no_slash hns]

/-- C6 amended witness: a slash-delimited raw date is reordered, the
hyphen-delimited one of the counterexample is dropped. -/
theorem c6_slash_only_amended_witness :
    (normalize_fields { emptyRaw with test_date := "15/03/2024" }).test_date =
      some "2024-03-15" ∧
    (normalize_fields { emptyRaw with test_date := "15-03-2024" }).test_date = none := by
  constructor
  · exact ((c6_slash_only_amended { emptyRaw with test_date := "15/03/2024" }).2.1
      ("15".data) ("03".data) ("2024".data) (by decide) (by decide)).trans (by decide)
  · exact (c6_slash_only_amended { emptyRaw with test_date := "15-03-2024" }).2.2
      (by decide) (by decide)

/-- C7: whenever one of the four date labels is followed by a y/m/d or
y-m-d digit triplet, the parser stores it as d/m/y and the normalizer
reorders it back, so the canonical test date is the hyphen-separated y-m-d
string over the captured triplet. -/
theorem c7_date_roundtrip :
    ∀ (text filename : String) (y m d : String),
      dateField text = some (y, m, d) →
      (extract_fields text filename).test_date = some (y ++ "-" ++ m ++ "-" ++ d) :=
  fun _ _ _ _ _ h => (test_date_of_dateField h).2

/-- C7 witness: both a hyphen-written and a slash-written source date under
two different labels round-trip to the same canonical y-m-d string. -/
theorem c7_date_roundtrip_witness :
    (extract_fields "Test Date: 2024-03-15" "").test_date = some "2024-03-15" ∧
    (extract_fields "Report Date: 2024/03/15" "").test_date = some "2024-03-15" := by
  constructor
  · exact (c7_date_roundtrip "Test Date: 2024-03-15" "" "2024" "03" "15"
      (by decide)).trans (by decide)
  · exact (c7_date_roundtrip "Report Date: 2024/03/15" "" "2024" "03" "15"
      (by decide)).trans (by decide)

/-- C8: a mileage template whose captured numeric run fails the float parse
does not abort the field: the loop continues with the remaining templates;
and a successful parse yields the truncated integer with comma separators
and the literal suffix. -/
theorem c8_mileage_fallthrough :
    ∀ (t : String) (p : Pat) (rest : List Pat) (g : List Char),
      (mileCapture p t = some g → pyFloatToInt (mileClean g) = none →
        loopFirst (fun q => mileTry q t) (p :: rest) =
          loopFirst (fun q => mileTry q t) rest) ∧
      (∀ n, mileCapture p t = some g → pyFloatToInt (mileClean g) = some n →
        loopFirst (fun q => mileTry q t) (p :: rest) =
          some (String.mk (commaFmt n ++ (" miles").data))) := by
  intro t p rest g
  constructor
  · intro h1 h2
    have hnone : mileTry p t = none := by
      unfold mileTry
      rw [h1]
      simp [h2]
    exact loopFirst_cons_none _ hnone rest
  · intro n h1 h2
    have hsome : mileTry p t = some (String.mk (commaFmt n ++ (" miles").data)) := by
      unfold mileTry
      rw [h1]
      simp [h2]
    exact loopFirst_cons_some _ hsome rest

/-- C8 witness: the Mileage template matches with the unparsable capture
`.\n`, falls through, and the lower-priority Odometer template fills the
field. -/
theorem c8_mileage_fallthrough_witness :
    mileCapture milePat3 "Mileage: .\nOdometer: 42 miles" = some (".\n").data ∧
    pyFloatToInt (mileClean (".\n").data) = none ∧
    mileageField "Mileage: .\nOdometer: 42 miles" = some "42 miles" := by
  refine ⟨by decide, by decide, ?_⟩
  have h := (c8_mileage_fallthrough "Mileage: .\nOdometer: 42 miles" milePat3
    [milePat4, milePat5] (".\n").data).1 (by decide) (by decide)
  show loopFirst (fun q => mileTry q "Mileage: .\nOdometer: 42 miles")
    mileage_patterns = some "42 miles"
  rw [mileage_patterns,
    loopFirst_cons_none _ (by decide : mileTry milePat1 "Mileage: .\nOdometer: 42 miles" = none),
    loopFirst_cons_none _ (by decide : mileTry milePat2 "Mileage: .\nOdometer: 42 miles" = none)]
  exact h.trans (by decide)

/-- C9: the parser is a total function: every (text, filename) pair yields a
bag; each field is computed by its own loop, so a miss leaves only that
field at its seed value while all others are still attempted; empty text and
filename yield the all-unset bag. -/
theorem c9_totality_field_local :
    (∀ (text filename : String),
      parse_diagnostic_report text filename =
        { vin := (vinField text).getD (seedFields filename).vin,
          make := (makeField text).getD (seedFields filename).make,
          model := (modelField text).getD (seedFields filename).model,
          year := (yearField text).getD (seedFields filename).year,
          mileage := (mileageField text).getD (seedFields filename).mileage,
          battery_capacity := (battField text).getD (seedFields filename).battery_capacity,
          soc := (socField text).or (seedFields filename).soc,
          test_date := (dateField text).elim (seedFields filename).test_date
            (fun ymd => ymd.2.2 ++ "/" ++ ymd.2.1 ++ "/" ++ ymd.1) }) ∧
    parse_diagnostic_report "" "" = emptyRaw :=
  ⟨parse_fields, by decide⟩

/-- C10: an accepted SOC capture of zero sets the raw field to the integer
0, yet the truthiness filter of the normalizer drops it, so a present
`state_of_health` key always carries a value between 1 and 100. -/
theorem c10_soc_zero_dropped :
    (∀ (t fn : String), socField t = some 0 →
      (parse_diagnostic_report t fn).soc = some 0 ∧
      (extract_fields t fn).state_of_health = none) ∧
    (∀ (t fn : String) (v : Nat),
      (extract_fields t fn).state_of_health = some v → 1 ≤ v ∧ v ≤ 100) := by
  constructor
  · intro t fn h
    have hsoc : (parse_diagnostic_report t fn).soc = some 0 := by
      rw [(parse_simp t fn).2.2.2.1, h]
    refine ⟨hsoc, ?_⟩
    show (match (parse_diagnostic_report t fn).soc with
      | some n => if !(n == 0) then some n else none
      | none => none) = none
    rw [hsoc]
    rfl
  · intro t fn v h
    have h2 : (match (parse_diagnostic_report t fn).soc with
        | some n => if !(n == 0) then some n else none
        | none => none) = some v := h
    rw [(parse_simp t fn).2.2.2.1] at h2
    cases hs : socField t with
    | none => rw [hs] at h2; exact absurd h2 (by simp)
    | some n =>
      rw [hs] at h2
      have h3 : (if !(n == 0) then some n else none) = some v := h2
      by_cases hz : (n == 0) = true
      · rw [if_neg (by simp [hz])] at h3
        exact absurd h3 (by simp)
      · rw [if_pos (by simp [hz])] at h3
        obtain rfl : n = v := by injection h3
        have hn0 : n ≠ 0 := by simpa using hz
        exact ⟨by omega, socField_le hs⟩

/-- C10 witness: the line SOC: 0% is captured and accepted as 0, and the
canonical output still has no `state_of_health` key. -/
theorem c10_soc_zero_dropped_witness :
    (parse_diagnostic_report "SOC: 0%" "").soc = some 0 ∧
    (extract_fields "SOC: 0%" "").state_of_health = none :=
  c10_soc_zero_dropped.1 "SOC: 0%" "" (by decide)

end BHCG
